import Mathlib

/-!
Shallow embedding of `src/vs/base/browser/ui/iconLabel/iconLabel.ts`.

The widget state (the `FastLabelNode` memoizing wrapper, the `IconLabel`
composite, the lazily created badge element) is modelled as explicit data,
and every DOM mutation the code performs is recorded as a `DomWrite` event,
so that "produces no DOM writes" claims become statements about the emitted
event list.  External collaborators that are not part of the sources
(`Color`, `HighlightedLabel`, the `dom` helpers, `paths`, `getPathLabel`)
are modelled from the spec where a claim needs them.
-/

/-- Identity of the DOM elements the widget owns: the container
(`.monaco-icon-label`, wrapped by `domNode`), the label element
(`a.label-name`), the description element (`span.label-description`) and the
lazily created badge element (`span.label-badge`). -/
inductive ElemId where
  | container
  | labelEl
  | descriptionEl
  | badgeEl
  deriving DecidableEq, Repr

/-- One observable DOM mutation performed by the code (what a spy on the
underlying write points would record). -/
inductive DomWrite where
  | textContent (e : ElemId) (v : String)
  | className (e : ElemId) (v : String)
  | title (e : ElemId) (v : String)
  | marginLeft (e : ElemId) (v : Option String)
  | styleColor (e : ElemId) (v : String)
  | styleDisplay (e : ElemId) (v : String)
  | backgroundColor (e : ElemId) (v : String)
  | innerHTML (e : ElemId) (v : String)
  | createBadge
  | appendBadge
  | highlightRender (text : String) (ms : List (Nat × Nat))
  deriving DecidableEq, Repr

/-- Modelled from the spec: the color value type (`vs/base/common/color`, not
part of the sources) supports serialization to a style string and a darkness
predicate used for contrast-safe badge text.  `str` is the serialized form,
`isDarker` the perceived-darkness predicate. -/
structure Color where
  str : String
  isDarker : Bool
  deriving DecidableEq, Repr

/-- Modelled from the spec: the white constant of the color type. -/
def Color.white : Color := { str := "#FFFFFF", isDarker := false }

/-- Modelled from the spec: the black constant of the color type. -/
def Color.black : Color := { str := "#000000", isDarker := true }

/-- Modelled from the spec: a highlight match range is a pair of offsets into
the label text (`IMatch` from `vs/base/common/filters` is not part of the
sources). -/
abbrev IMatch := Nat × Nat

/-- The badge option carried by `IIconLabelOptions` (`{ letter, title }`). -/
structure BadgeOption where
  letter : String
  title : String
  deriving DecidableEq, Repr

/-- `IIconLabelOptions` from the source: title, extra CSS classes, italic
flag, highlight matches, color and badge. -/
structure IIconLabelOptions where
  title : Option String := none
  extraClasses : Option (List String) := none
  italic : Bool := false
  matchList : Option (List IMatch) := none
  color : Option Color := none
  badge : Option BadgeOption := none
  deriving DecidableEq, Repr

/-- Mutable state of a DOM element as far as this widget touches it. -/
structure ElemState where
  textContent : String
  className : String
  title : String
  marginLeft : Option String
  styleColor : String
  styleDisplay : Option String
  deriving DecidableEq, Repr

/-- A freshly created element carrying only the class set by `dom.$`. -/
def ElemState.fresh (cls : String) : ElemState :=
  { textContent := "", className := cls, title := "", marginLeft := none,
    styleColor := "", styleDisplay := none }

/-- `FastLabelNode`: wraps one element, caches the last-applied text content,
class name, title and empty flag, and carries the disposed flag.  The cached
fields start out `none` (JS `undefined`). -/
structure FastLabelNode where
  elemId : ElemId
  element : ElemState
  disposed : Bool
  _textContent : Option String
  _className : Option String
  _title : Option String
  _empty : Option Bool
  deriving DecidableEq, Repr

/-- A freshly constructed `FastLabelNode` over a given element. -/
def FastLabelNode.create (e : ElemId) (es : ElemState) : FastLabelNode :=
  { elemId := e, element := es, disposed := false, _textContent := none,
    _className := none, _title := none, _empty := none }

/-- The `textContent` setter: skips when disposed or unchanged, otherwise
caches the value and writes the element's text content. -/
def FastLabelNode.setTextContent (n : FastLabelNode) (content : String) :
    FastLabelNode × List DomWrite :=
  if n.disposed || n._textContent == some content then (n, [])
  else ({ n with
            _textContent := some content,
            element := { n.element with textContent := content } },
        [DomWrite.textContent n.elemId content])

/-- The `className` setter: skips when disposed or unchanged. -/
def FastLabelNode.setClassName (n : FastLabelNode) (cls : String) :
    FastLabelNode × List DomWrite :=
  if n.disposed || n._className == some cls then (n, [])
  else ({ n with
            _className := some cls,
            element := { n.element with className := cls } },
        [DomWrite.className n.elemId cls])

/-- The `title` setter: skips when disposed or unchanged. -/
def FastLabelNode.setTitle (n : FastLabelNode) (t : String) :
    FastLabelNode × List DomWrite :=
  if n.disposed || n._title == some t then (n, [])
  else ({ n with
            _title := some t,
            element := { n.element with title := t } },
        [DomWrite.title n.elemId t])

/-- The `empty` setter: skips when disposed or unchanged, otherwise writes
`marginLeft` to `'0'` (empty) or clears it (`null`). -/
def FastLabelNode.setEmpty (n : FastLabelNode) (empty : Bool) :
    FastLabelNode × List DomWrite :=
  if n.disposed || n._empty == some empty then (n, [])
  else
    let m : Option String := if empty then some "0" else none
    ({ n with
         _empty := some empty,
         element := { n.element with marginLeft := m } },
     [DomWrite.marginLeft n.elemId m])

/-- `FastLabelNode.dispose`: sets the disposed flag; nothing ever unsets it. -/
def FastLabelNode.dispose (n : FastLabelNode) : FastLabelNode :=
  { n with disposed := true }

/-- Modelled from the spec: the highlighted-text renderer
(`vs/base/browser/ui/highlightedlabel/highlightedLabel`, not part of the
sources) accepts raw text plus an ordered set of match ranges, re-renders
only on change, and exposes `dispose`; per the spec all setters of the
widget become no-ops after disposal. -/
structure HighlightedLabel where
  rendered : Option (String × List IMatch)
  disposed : Bool
  deriving DecidableEq, Repr

/-- A freshly constructed highlighted-label renderer. -/
def HighlightedLabel.create : HighlightedLabel :=
  { rendered := none, disposed := false }

/-- Modelled from the spec: `HighlightedLabel.set` renders the given text and
match ranges; absent matches default to the empty list; no re-render when the
input is unchanged or the renderer is disposed. -/
def HighlightedLabel.set (h : HighlightedLabel) (text : String)
    (m : Option (List IMatch)) : HighlightedLabel × List DomWrite :=
  let ms := m.getD []
  if h.disposed || h.rendered == some (text, ms) then (h, [])
  else ({ h with rendered := some (text, ms) },
        [DomWrite.highlightRender text ms])

/-- Modelled from the spec: disposing the highlighted-label renderer. -/
def HighlightedLabel.dispose (h : HighlightedLabel) : HighlightedLabel :=
  { h with disposed := true }

/-- The label node is either a plain `FastLabelNode` or a `HighlightedLabel`,
chosen at construction time by `supportHighlights`. -/
inductive LabelNode where
  | fast (n : FastLabelNode)
  | highlighted (h : HighlightedLabel)
  deriving DecidableEq, Repr

/-- Writing the label: plain nodes get `textContent`, highlighted ones get
`set(text, matches)`. -/
def LabelNode.setLabel : LabelNode → String → Option (List IMatch) →
    LabelNode × List DomWrite
  | LabelNode.fast n, text, _ =>
    (LabelNode.fast (n.setTextContent text).1, (n.setTextContent text).2)
  | LabelNode.highlighted h, text, m =>
    (LabelNode.highlighted (h.set text m).1, (h.set text m).2)

/-- Disposing the label node, whichever variant it is. -/
def LabelNode.dispose : LabelNode → LabelNode
  | LabelNode.fast n => LabelNode.fast n.dispose
  | LabelNode.highlighted h => LabelNode.highlighted h.dispose

/-- The lazily created badge element (`span.label-badge`): its class,
background color, foreground color, inner HTML, title and display style. -/
structure BadgeNode where
  className : String
  backgroundColor : String
  color : String
  innerHTML : String
  title : String
  styleDisplay : String
  deriving DecidableEq, Repr

/-- The `IconLabel` widget: the wrapped container node, the label node, the
wrapped description node, and the optional badge element (absent until first
requested, never removed afterwards). -/
structure IconLabel where
  domNode : FastLabelNode
  labelNode : LabelNode
  descriptionNode : FastLabelNode
  badgeNode : Option BadgeNode
  deriving DecidableEq, Repr

/-- The `IconLabel` constructor: container gets class `monaco-icon-label`,
the label child is a highlighted renderer exactly when `supportHighlights`,
the description child is a plain wrapped span. -/
def IconLabel.create (supportHighlights : Bool) : IconLabel :=
  { domNode := FastLabelNode.create ElemId.container (ElemState.fresh "monaco-icon-label"),
    labelNode :=
      if supportHighlights then LabelNode.highlighted HighlightedLabel.create
      else LabelNode.fast (FastLabelNode.create ElemId.labelEl (ElemState.fresh "label-name")),
    descriptionNode := FastLabelNode.create ElemId.descriptionEl (ElemState.fresh "label-description"),
    badgeNode := none }

/-- JS truthiness of an optional string: present and non-empty. -/
def truthyStr : Option String → Bool
  | none => false
  | some s => !(s == "")

/-- The class list `setValue` recomputes on every call: the base class, then
the extra classes from the options, then `italic` when the italic option is
set. -/
def classList (options : Option IIconLabelOptions) : List String :=
  match options with
  | none => ["monaco-icon-label"]
  | some opts =>
    let classes :=
      match opts.extraClasses with
      | some ec => ["monaco-icon-label"] ++ ec
      | none => ["monaco-icon-label"]
    if opts.italic then classes ++ ["italic"] else classes

/-- The class string `setValue` assigns: the class list joined with spaces. -/
def computedClassName (options : Option IIconLabelOptions) : String :=
  String.intercalate " " (classList options)

/-- The title `setValue` assigns: `options && options.title ? options.title
: ''` (an empty options title is falsy and also yields the empty string). -/
def computedTitle (options : Option IIconLabelOptions) : String :=
  match options with
  | some opts => (opts.title).getD ""
  | none => ""

/-- The color style value written when options are present:
`options.color ? options.color.toString() : ''`. -/
def colorStyleValue (opts : IIconLabelOptions) : String :=
  match opts.color with
  | some c => c.str
  | none => ""

/-- `dom.hide` on the badge when it exists (modelled from the spec's show and
hide helpers: hiding sets the display style to `none`); no badge, no work. -/
def IconLabel.hideBadge (st : IconLabel) : IconLabel × List DomWrite :=
  match st.badgeNode with
  | some bn =>
    ({ st with badgeNode := some { bn with styleDisplay := "none" } },
     [DomWrite.styleDisplay ElemId.badgeEl "none"])
  | none => (st, [])

/-- The badge section of `setValue`: when a badge option is present, lazily
create the badge element (class, background from `options.color`, foreground
white or black by the color's darkness, container switched to flex, element
appended) and then unconditionally write its letter, title and visibility;
when absent, hide an existing badge.  Returns `none` when the code throws:
creating the badge evaluates `options.color.toString()` on an absent color. -/
def IconLabel.badgeStep (st : IconLabel) (options : Option IIconLabelOptions) :
    Option (IconLabel × List DomWrite) :=
  match options with
  | some opts =>
    match opts.badge with
    | some b =>
      match st.badgeNode with
      | some bn =>
        some ({ st with
                  badgeNode := some ({ bn with
                    innerHTML := b.letter, title := b.title, styleDisplay := "" }) },
              [DomWrite.innerHTML ElemId.badgeEl b.letter,
               DomWrite.title ElemId.badgeEl b.title,
               DomWrite.styleDisplay ElemId.badgeEl ""])
      | none =>
        match opts.color with
        | none => none
        | some c =>
          some ({ st with
                    badgeNode := some
                      { className := "label-badge", backgroundColor := c.str,
                        color := (if c.isDarker then Color.white else Color.black).str,
                        innerHTML := b.letter, title := b.title, styleDisplay := "" },
                    domNode := { st.domNode with
                      element := { st.domNode.element with styleDisplay := some "flex" } } },
                [DomWrite.createBadge,
                 DomWrite.className ElemId.badgeEl "label-badge",
                 DomWrite.backgroundColor ElemId.badgeEl c.str,
                 DomWrite.styleColor ElemId.badgeEl
                   (if c.isDarker then Color.white else Color.black).str,
                 DomWrite.styleDisplay ElemId.container "flex",
                 DomWrite.appendBadge,
                 DomWrite.innerHTML ElemId.badgeEl b.letter,
                 DomWrite.title ElemId.badgeEl b.title,
                 DomWrite.styleDisplay ElemId.badgeEl ""])
    | none => some st.hideBadge
  | none => some st.hideBadge

/-- The first statement of `setValue` under `if (options)`: the container's
color style is written directly — no memoization, no dispose guard. -/
def IconLabel.colorStep (st : IconLabel) (options : Option IIconLabelOptions) :
    IconLabel × List DomWrite :=
  match options with
  | none => (st, [])
  | some opts =>
    ({ st with
         domNode := { st.domNode with
           element := { st.domNode.element with styleColor := colorStyleValue opts } } },
     [DomWrite.styleColor ElemId.container (colorStyleValue opts)])

/-- `this.domNode.className = classes.join(' ')` through the wrapper. -/
def IconLabel.classStep (st : IconLabel) (options : Option IIconLabelOptions) :
    IconLabel × List DomWrite :=
  ({ st with domNode := (st.domNode.setClassName (computedClassName options)).1 },
   (st.domNode.setClassName (computedClassName options)).2)

/-- `this.domNode.title = ...` through the wrapper. -/
def IconLabel.titleStep (st : IconLabel) (options : Option IIconLabelOptions) :
    IconLabel × List DomWrite :=
  ({ st with domNode := (st.domNode.setTitle (computedTitle options)).1 },
   (st.domNode.setTitle (computedTitle options)).2)

/-- Writing the label node: text (or highlighted text plus match ranges). -/
def IconLabel.labelStep (st : IconLabel) (label : Option String)
    (options : Option IIconLabelOptions) : IconLabel × List DomWrite :=
  ({ st with labelNode :=
       (st.labelNode.setLabel (label.getD "") (options.bind (fun o => o.matchList))).1 },
   (st.labelNode.setLabel (label.getD "") (options.bind (fun o => o.matchList))).2)

/-- Writing the description node: its text content, then its empty flag. -/
def IconLabel.descStep (st : IconLabel) (description : Option String) :
    IconLabel × List DomWrite :=
  ({ st with descriptionNode :=
       ((st.descriptionNode.setTextContent (description.getD "")).1.setEmpty
         (!truthyStr description)).1 },
   (st.descriptionNode.setTextContent (description.getD "")).2 ++
     ((st.descriptionNode.setTextContent (description.getD "")).1.setEmpty
       (!truthyStr description)).2)

/-- `IconLabel.setValue`: the direct color-style write, then class, title,
label text, description text and empty flag through the wrappers, then the
badge section, in source order.  Returns the new state and the ordered DOM
writes, or `none` when the badge section throws. -/
def IconLabel.setValue (st : IconLabel) (label description : Option String)
    (options : Option IIconLabelOptions) : Option (IconLabel × List DomWrite) :=
  let p1 := st.colorStep options
  let p2 := p1.1.classStep options
  let p3 := p2.1.titleStep options
  let p4 := p3.1.labelStep label options
  let p5 := p4.1.descStep description
  match p5.1.badgeStep options with
  | none => none
  | some p6 => some (p6.1, p1.2 ++ p2.2 ++ p3.2 ++ p4.2 ++ p5.2 ++ p6.2)

/-- `IconLabel.dispose`: disposes the three wrapped nodes (and only them —
the badge element and the container's direct style writes have no guard). -/
def IconLabel.dispose (st : IconLabel) : IconLabel :=
  { st with
      domNode := st.domNode.dispose,
      labelNode := st.labelNode.dispose,
      descriptionNode := st.descriptionNode.dispose }

/-- Write points that bypass the memoizing wrappers: the container's direct
color-style write, the badge element's creation and all badge mutations, and
the show and hide display writes.  Everything else (text content, class,
title and margin on the wrapped nodes, highlight re-renders) goes through a
guard that skips unchanged values and disposed nodes. -/
def DomWrite.unguarded : DomWrite → Bool
  | DomWrite.styleColor _ _ => true
  | DomWrite.styleDisplay _ _ => true
  | DomWrite.backgroundColor _ _ => true
  | DomWrite.innerHTML _ _ => true
  | DomWrite.createBadge => true
  | DomWrite.appendBadge => true
  | DomWrite.className e _ => e == ElemId.badgeEl
  | DomWrite.title e _ => e == ElemId.badgeEl
  | DomWrite.textContent _ _ => false
  | DomWrite.marginLeft _ _ => false
  | DomWrite.highlightRender _ _ => false

/-- A wrapped node whose cached class (when any) matches the element: holds
for freshly constructed nodes (no cached value) and is preserved by every
setter. -/
def FastLabelNode.classConsistent (n : FastLabelNode) : Bool :=
  match n._className with
  | some s => n.element.className == s
  | none => true

/-- A wrapped node whose cached title (when any) matches the element. -/
def FastLabelNode.titleConsistent (n : FastLabelNode) : Bool :=
  match n._title with
  | some s => n.element.title == s
  | none => true

/-- A wrapped node whose cached empty flag (when any) matches the element's
margin: `'0'` when empty, cleared otherwise. -/
def FastLabelNode.marginConsistent (n : FastLabelNode) : Bool :=
  match n._empty with
  | some b => n.element.marginLeft == (if b then some "0" else none)
  | none => true

/-- A wrapped node whose cached text content (when any) matches the element. -/
def FastLabelNode.textConsistent (n : FastLabelNode) : Bool :=
  match n._textContent with
  | some s => n.element.textContent == s
  | none => true

/-- The state after a `setValue` call, when it returns. -/
def IconLabel.afterSetValue (st : IconLabel) (label description : Option String)
    (options : Option IIconLabelOptions) : Option IconLabel :=
  (st.setValue label description options).map Prod.fst

/-- The DOM writes of a `setValue` call, when it returns. -/
def IconLabel.writesOfSetValue (st : IconLabel) (label description : Option String)
    (options : Option IIconLabelOptions) : Option (List DomWrite) :=
  (st.setValue label description options).map Prod.snd

/-- The DOM writes of the second of two `setValue` calls with identical
arguments, when both return. -/
def IconLabel.repeatWrites (st : IconLabel) (label description : Option String)
    (options : Option IIconLabelOptions) : Option (List DomWrite) :=
  (st.setValue label description options).bind
    (fun p => (p.1.setValue label description options).map Prod.snd)

/-- Modelled from the spec: one registered click listener of the DOM helper
(`dom.addDisposableListener` is not part of the sources): a registration id,
the target element and the callback it invokes. -/
structure ClickListener where
  id : Nat
  target : ElemId
  callback : Nat
  deriving DecidableEq, Repr

/-- Modelled from the spec: registering a click listener appends it to the
registry; the returned id stands for the disposal handle. -/
def addDisposableListener (ls : List ClickListener) (id : Nat) (target : ElemId)
    (cb : Nat) : List ClickListener :=
  ls ++ [{ id := id, target := target, callback := cb }]

/-- Modelled from the spec: disposing a combined handle removes the listeners
it registered, by id. -/
def removeListeners (ls : List ClickListener) (ids : List Nat) : List ClickListener :=
  ls.filter (fun l => !(ids.contains l.id))

/-- Modelled from the spec: a click on an element invokes, in order, every
callback registered for that element. -/
def dispatchClick (ls : List ClickListener) (e : ElemId) : List Nat :=
  (ls.filter (fun l => l.target == e)).map ClickListener.callback

/-- `IconLabel.onClick`: attaches one click listener to the label element and
one to the description element, both invoking the same callback, and returns
the pair of registration ids as the combined disposal handle. -/
def IconLabel.onClick (ls : List ClickListener) (id1 id2 : Nat) (cb : Nat) :
    List ClickListener × List Nat :=
  (addDisposableListener
     (addDisposableListener ls id1 ElemId.labelEl cb) id2 ElemId.descriptionEl cb,
   [id1, id2])

/-- Modelled from the spec: index of the last `/` in a character list
(`vs/base/common/paths` is not part of the sources; separators are modelled
as POSIX `/`). -/
def lastSlashIdx : List Char → Option Nat
  | [] => none
  | c :: cs =>
    match lastSlashIdx cs with
    | some i => some (i + 1)
    | none => if c == '/' then some 0 else none

/-- Modelled from the spec: `paths.dirname` — `.` when the path has no
separator, the root itself when the only separator is leading, otherwise the
prefix before the last separator. -/
def dirname (path : String) : String :=
  match lastSlashIdx path.toList with
  | none => "."
  | some 0 => String.mk (path.toList.take 1)
  | some i => String.mk (path.toList.take i)

/-- Modelled from the spec: `paths.basename` — the suffix after the last
separator, the whole path when there is none. -/
def basename (path : String) : String :=
  match lastSlashIdx path.toList with
  | none => path
  | some i => String.mk (path.toList.drop (i + 1))

/-- `FileLabel.setFile`: label is the path's basename; description is the
parent directory formatted by `getPathLabel` unless the parent is empty or
`.`; the options carry the full path as title.  The path-label collaborator
(`getPathLabel` from `vs/base/common/labels`, not part of the sources, with
the workspace and user-home providers folded in) is passed as a function. -/
def FileLabel.setFile (st : IconLabel) (fsPath : String)
    (getPathLabel : String → String) : Option (IconLabel × List DomWrite) :=
  let parent := dirname fsPath
  st.setValue (some (basename fsPath))
    (some (if !(parent == "") && !(parent == ".") then getPathLabel parent else ""))
    (some { title := some fsPath })

/-- The `FileLabel` constructor: a plain `IconLabel` (no highlight support)
immediately filled by `setFile`. -/
def FileLabel.create (fsPath : String) (getPathLabel : String → String) :
    Option (IconLabel × List DomWrite) :=
  FileLabel.setFile (IconLabel.create false) fsPath getPathLabel

/-- The container node already reflects the class and title computed from
the given options (or is disposed, in which case its setters skip anyway). -/
def domSettled (n : FastLabelNode) (o : Option IIconLabelOptions) : Prop :=
  n.disposed = true ∨
    (n._className = some (computedClassName o) ∧ n._title = some (computedTitle o))

/-- The label node already reflects the given text and match ranges (or is
disposed). -/
def labelSettled (ln : LabelNode) (text : String) (m : Option (List IMatch)) : Prop :=
  match ln with
  | LabelNode.fast n => n.disposed = true ∨ n._textContent = some text
  | LabelNode.highlighted h => h.disposed = true ∨ h.rendered = some (text, m.getD [])

/-- The description node already reflects the given description (or is
disposed). -/
def descSettled (n : FastLabelNode) (d : Option String) : Prop :=
  n.disposed = true ∨
    (n._textContent = some (d.getD "") ∧ n._empty = some (!truthyStr d))

/-- The whole widget already reflects the arguments `(label, description,
options)`: in this state only the unguarded write points of `setValue` can
fire again. -/
def IconLabel.Applied (st : IconLabel) (l d : Option String)
    (o : Option IIconLabelOptions) : Prop :=
  domSettled st.domNode o ∧
    labelSettled st.labelNode (l.getD "") (o.bind (fun x => x.matchList)) ∧
    descSettled st.descriptionNode d

/-- The text the label node last applied: the wrapper's cache for plain
nodes, the rendered text for highlighted ones. -/
def labelTextCache : LabelNode → Option String
  | LabelNode.fast n => n._textContent
  | LabelNode.highlighted h => h.rendered.map Prod.fst

/-- Recognizes the badge-creation write (used to state that an existing
badge element is never re-created). -/
def DomWrite.isCreate : DomWrite → Bool
  | DomWrite.createBadge => true
  | _ => false

/-! Concrete instances used to evaluate the theorems on real runs. -/

/-- A concrete dark color. -/
def redColor : Color := { str := "red", isDarker := true }

/-- A concrete light color. -/
def blueColor : Color := { str := "blue", isDarker := false }

/-- Options carrying only a color. -/
def colorOnlyOptions : IIconLabelOptions := { color := some redColor }

/-- Options requesting a badge with the dark color. -/
def badgeOptions : IIconLabelOptions :=
  { color := some redColor, badge := some { letter := "M", title := "Modified" } }

/-- Options requesting a different badge with a different color. -/
def badgeOptions2 : IIconLabelOptions :=
  { color := some blueColor, badge := some { letter := "N", title := "New" } }

/-- A fresh label after one `setValue` that applied a color. -/
def coloredLabelState : IconLabel :=
  (IconLabel.afterSetValue (IconLabel.create false) (some "a") none
    (some colorOnlyOptions)).getD (IconLabel.create false)

/-- A fresh label after one `setValue` that created the badge. -/
def badgedLabelState : IconLabel :=
  (IconLabel.afterSetValue (IconLabel.create false) (some "a") none
    (some badgeOptions)).getD (IconLabel.create false)

/-- The badge element as first created by `badgeOptions`. -/
def firstBadge : BadgeNode :=
  { className := "label-badge", backgroundColor := "red", color := "#FFFFFF",
    innerHTML := "M", title := "Modified", styleDisplay := "" }

/-- The badged label after a further `setValue` without a badge option. -/
def hiddenBadgeState : IconLabel :=
  (IconLabel.afterSetValue badgedLabelState (some "b") none none).getD
    (IconLabel.create false)

/-- The hidden-badge label after a further `setValue` with the second badge
option. -/
def reShownBadgeState : IconLabel :=
  (IconLabel.afterSetValue hiddenBadgeState (some "c") none
    (some badgeOptions2)).getD (IconLabel.create false)

/-! Helper lemmas about the wrapped-node setters. -/

/-- A disposed or already-cached value makes the text setter a strict no-op. -/
theorem FastLabelNode.setTextContent_skip (n : FastLabelNode) (v : String)
    (h : n.disposed = true ∨ n._textContent = some v) :
    n.setTextContent v = (n, []) := by
  rcases h with h | h <;> simp [FastLabelNode.setTextContent, h]

/-- A disposed or already-cached value makes the class setter a strict no-op. -/
theorem FastLabelNode.setClassName_skip (n : FastLabelNode) (v : String)
    (h : n.disposed = true ∨ n._className = some v) :
    n.setClassName v = (n, []) := by
  rcases h with h | h <;> simp [FastLabelNode.setClassName, h]

/-- A disposed or already-cached value makes the title setter a strict no-op. -/
theorem FastLabelNode.setTitle_skip (n : FastLabelNode) (v : String)
    (h : n.disposed = true ∨ n._title = some v) :
    n.setTitle v = (n, []) := by
  rcases h with h | h <;> simp [FastLabelNode.setTitle, h]

/-- A disposed or already-cached value makes the empty setter a strict no-op. -/
theorem FastLabelNode.setEmpty_skip (n : FastLabelNode) (v : Bool)
    (h : n.disposed = true ∨ n._empty = some v) :
    n.setEmpty v = (n, []) := by
  rcases h with h | h <;> simp [FastLabelNode.setEmpty, h]

/-- On a non-disposed node the text setter leaves the value cached. -/
theorem FastLabelNode.setTextContent_cache (n : FastLabelNode) (v : String)
    (h : n.disposed = false) :
    (n.setTextContent v).1._textContent = some v := by
  by_cases hc : n._textContent = some v <;>
    simp [FastLabelNode.setTextContent, h, hc]

/-- On a non-disposed node the class setter leaves the value cached. -/
theorem FastLabelNode.setClassName_cache (n : FastLabelNode) (v : String)
    (h : n.disposed = false) :
    (n.setClassName v).1._className = some v := by
  by_cases hc : n._className = some v <;>
    simp [FastLabelNode.setClassName, h, hc]

/-- On a non-disposed node the title setter leaves the value cached. -/
theorem FastLabelNode.setTitle_cache (n : FastLabelNode) (v : String)
    (h : n.disposed = false) :
    (n.setTitle v).1._title = some v := by
  by_cases hc : n._title = some v <;>
    simp [FastLabelNode.setTitle, h, hc]

/-- On a non-disposed node the empty setter leaves the flag cached. -/
theorem FastLabelNode.setEmpty_cache (n : FastLabelNode) (v : Bool)
    (h : n.disposed = false) :
    (n.setEmpty v).1._empty = some v := by
  by_cases hc : n._empty = some v <;>
    simp [FastLabelNode.setEmpty, h, hc]

/-- The text setter never touches the disposed flag or the other caches. -/
theorem FastLabelNode.setTextContent_frame (n : FastLabelNode) (v : String) :
    (n.setTextContent v).1.disposed = n.disposed ∧
    (n.setTextContent v).1._className = n._className ∧
    (n.setTextContent v).1._title = n._title ∧
    (n.setTextContent v).1._empty = n._empty := by
  simp only [FastLabelNode.setTextContent]
  split <;> exact ⟨rfl, rfl, rfl, rfl⟩

/-- The class setter never touches the disposed flag or the other caches. -/
theorem FastLabelNode.setClassName_frame (n : FastLabelNode) (v : String) :
    (n.setClassName v).1.disposed = n.disposed ∧
    (n.setClassName v).1._textContent = n._textContent ∧
    (n.setClassName v).1._title = n._title ∧
    (n.setClassName v).1._empty = n._empty := by
  simp only [FastLabelNode.setClassName]
  split <;> exact ⟨rfl, rfl, rfl, rfl⟩

/-- The title setter never touches the disposed flag or the other caches. -/
theorem FastLabelNode.setTitle_frame (n : FastLabelNode) (v : String) :
    (n.setTitle v).1.disposed = n.disposed ∧
    (n.setTitle v).1._textContent = n._textContent ∧
    (n.setTitle v).1._className = n._className ∧
    (n.setTitle v).1._empty = n._empty := by
  simp only [FastLabelNode.setTitle]
  split <;> exact ⟨rfl, rfl, rfl, rfl⟩

/-- The empty setter never touches the disposed flag or the other caches. -/
theorem FastLabelNode.setEmpty_frame (n : FastLabelNode) (v : Bool) :
    (n.setEmpty v).1.disposed = n.disposed ∧
    (n.setEmpty v).1._textContent = n._textContent ∧
    (n.setEmpty v).1._className = n._className ∧
    (n.setEmpty v).1._title = n._title := by
  simp only [FastLabelNode.setEmpty]
  split <;> exact ⟨rfl, rfl, rfl, rfl⟩

/-! Helper lemmas about the phases of `setValue`. -/

/-- Disposal or an already-rendered input makes the highlight renderer skip. -/
theorem HighlightedLabel.set_skip (h : HighlightedLabel) (text : String)
    (m : Option (List IMatch))
    (hp : h.disposed = true ∨ h.rendered = some (text, m.getD [])) :
    h.set text m = (h, []) := by
  rcases hp with hp | hp <;> simp [HighlightedLabel.set, hp]

/-- On a non-disposed renderer, `set` leaves the input rendered. -/
theorem HighlightedLabel.set_rendered (h : HighlightedLabel) (text : String)
    (m : Option (List IMatch)) (hd : h.disposed = false) :
    (h.set text m).1.rendered = some (text, m.getD []) := by
  by_cases hc : h.rendered = some (text, m.getD []) <;>
    simp [HighlightedLabel.set, hd, hc]

/-- The highlight renderer's `set` never touches the disposed flag. -/
theorem HighlightedLabel.set_frame (h : HighlightedLabel) (text : String)
    (m : Option (List IMatch)) :
    (h.set text m).1.disposed = h.disposed := by
  simp only [HighlightedLabel.set]
  split <;> rfl

/-- A settled label node makes `setLabel` a strict no-op. -/
theorem LabelNode.setLabel_skip (ln : LabelNode) (text : String)
    (m : Option (List IMatch)) (h : labelSettled ln text m) :
    ln.setLabel text m = (ln, []) := by
  cases ln with
  | fast n =>
    rw [labelSettled] at h
    rw [LabelNode.setLabel, FastLabelNode.setTextContent_skip n text h]
  | highlighted hl =>
    rw [labelSettled] at h
    rw [LabelNode.setLabel, HighlightedLabel.set_skip hl text m h]

/-- After `setLabel` the label node is settled on its input. -/
theorem LabelNode.setLabel_settles (ln : LabelNode) (text : String)
    (m : Option (List IMatch)) :
    labelSettled (ln.setLabel text m).1 text m := by
  cases ln with
  | fast n =>
    by_cases hd : n.disposed = true
    · rw [LabelNode.setLabel, FastLabelNode.setTextContent_skip n text (Or.inl hd)]
      exact Or.inl hd
    · rw [LabelNode.setLabel, labelSettled]
      exact Or.inr (n.setTextContent_cache text (by simpa using hd))
  | highlighted hl =>
    by_cases hd : hl.disposed = true
    · rw [LabelNode.setLabel, HighlightedLabel.set_skip hl text m (Or.inl hd)]
      exact Or.inl hd
    · rw [LabelNode.setLabel, labelSettled]
      exact Or.inr (hl.set_rendered text m (by simpa using hd))

/-- The color step never touches the caches, the disposed flags, the label
node, the description node or the badge. -/
theorem IconLabel.colorStep_frame (st : IconLabel) (o : Option IIconLabelOptions) :
    (st.colorStep o).1.domNode.disposed = st.domNode.disposed ∧
    (st.colorStep o).1.domNode._className = st.domNode._className ∧
    (st.colorStep o).1.domNode._title = st.domNode._title ∧
    (st.colorStep o).1.labelNode = st.labelNode ∧
    (st.colorStep o).1.descriptionNode = st.descriptionNode ∧
    (st.colorStep o).1.badgeNode = st.badgeNode := by
  cases o <;> exact ⟨rfl, rfl, rfl, rfl, rfl, rfl⟩

/-- Every write of the color step is an unguarded write point. -/
theorem IconLabel.colorStep_writes (st : IconLabel) (o : Option IIconLabelOptions) :
    ∀ x ∈ (st.colorStep o).2, x.unguarded = true := by
  cases o <;> simp [IconLabel.colorStep, DomWrite.unguarded]

/-- With no options the color step does nothing at all. -/
theorem IconLabel.colorStep_none (st : IconLabel) : st.colorStep none = (st, []) := rfl

/-- A settled container class makes the class step a strict no-op. -/
theorem IconLabel.classStep_skip (st : IconLabel) (o : Option IIconLabelOptions)
    (h : st.domNode.disposed = true ∨ st.domNode._className = some (computedClassName o)) :
    st.classStep o = (st, []) := by
  rw [IconLabel.classStep, FastLabelNode.setClassName_skip st.domNode _ h]

/-- A settled container title makes the title step a strict no-op. -/
theorem IconLabel.titleStep_skip (st : IconLabel) (o : Option IIconLabelOptions)
    (h : st.domNode.disposed = true ∨ st.domNode._title = some (computedTitle o)) :
    st.titleStep o = (st, []) := by
  rw [IconLabel.titleStep, FastLabelNode.setTitle_skip st.domNode _ h]

/-- A settled label node makes the label step a strict no-op. -/
theorem IconLabel.labelStep_skip (st : IconLabel) (l : Option String)
    (o : Option IIconLabelOptions)
    (h : labelSettled st.labelNode (l.getD "") (o.bind (fun x => x.matchList))) :
    st.labelStep l o = (st, []) := by
  rw [IconLabel.labelStep, LabelNode.setLabel_skip _ _ _ h]

/-- A settled description node makes the description step a strict no-op. -/
theorem IconLabel.descStep_skip (st : IconLabel) (d : Option String)
    (h : descSettled st.descriptionNode d) :
    st.descStep d = (st, []) := by
  rcases h with h | ⟨h1, h2⟩
  · rw [IconLabel.descStep, FastLabelNode.setTextContent_skip _ _ (Or.inl h),
        FastLabelNode.setEmpty_skip _ _ (Or.inl h)]
    rfl
  · rw [IconLabel.descStep, FastLabelNode.setTextContent_skip _ _ (Or.inr h1),
        FastLabelNode.setEmpty_skip _ _ (Or.inr h2)]
    rfl

/-- After the class and title steps, the container node is settled on the
options' computed class and title. -/
theorem domSettled_after (n : FastLabelNode) (o : Option IIconLabelOptions) :
    domSettled ((n.setClassName (computedClassName o)).1.setTitle (computedTitle o)).1 o := by
  by_cases hd : n.disposed = true
  · left
    rw [(FastLabelNode.setTitle_frame _ _).1, (FastLabelNode.setClassName_frame _ _).1, hd]
  · have hd' : n.disposed = false := by simpa using hd
    right
    have hdc : (n.setClassName (computedClassName o)).1.disposed = false := by
      rw [(FastLabelNode.setClassName_frame n _).1, hd']
    constructor
    · rw [(FastLabelNode.setTitle_frame _ _).2.2.1]
      exact n.setClassName_cache _ hd'
    · exact FastLabelNode.setTitle_cache _ _ hdc

/-- After the description step, the description node is settled on the
description's text and emptiness. -/
theorem descSettled_after (n : FastLabelNode) (d : Option String) :
    descSettled ((n.setTextContent (d.getD "")).1.setEmpty (!truthyStr d)).1 d := by
  by_cases hd : n.disposed = true
  · left
    rw [(FastLabelNode.setEmpty_frame _ _).1, (FastLabelNode.setTextContent_frame _ _).1, hd]
  · have hd' : n.disposed = false := by simpa using hd
    right
    have hd2 : (n.setTextContent (d.getD "")).1.disposed = false := by
      rw [(FastLabelNode.setTextContent_frame _ _).1, hd']
    constructor
    · rw [(FastLabelNode.setEmpty_frame _ _).2.1]
      exact n.setTextContent_cache _ hd'
    · exact FastLabelNode.setEmpty_cache _ _ hd2

/-- The badge section, when it returns, leaves the wrapped nodes' caches,
flags and the non-display element state of the container untouched. -/
theorem IconLabel.badgeStep_frame (st : IconLabel) (o : Option IIconLabelOptions)
    (p : IconLabel × List DomWrite) (h : st.badgeStep o = some p) :
    p.1.domNode.disposed = st.domNode.disposed ∧
    p.1.domNode._className = st.domNode._className ∧
    p.1.domNode._title = st.domNode._title ∧
    p.1.labelNode = st.labelNode ∧
    p.1.descriptionNode = st.descriptionNode ∧
    p.1.domNode.element.className = st.domNode.element.className ∧
    p.1.domNode.element.title = st.domNode.element.title ∧
    p.1.domNode.element.styleColor = st.domNode.element.styleColor := by
  unfold IconLabel.badgeStep IconLabel.hideBadge at h
  split at h
  all_goals try split at h
  all_goals try split at h
  all_goals try split at h
  all_goals try split at h
  all_goals
    first
      | exact Option.noConfusion h
      | (obtain rfl := Option.some.inj h
         exact ⟨rfl, rfl, rfl, rfl, rfl, rfl, rfl, rfl⟩)

/-- Every write of the badge section is an unguarded write point. -/
theorem IconLabel.badgeStep_writes (st : IconLabel) (o : Option IIconLabelOptions)
    (p : IconLabel × List DomWrite) (h : st.badgeStep o = some p) :
    ∀ x ∈ p.2, x.unguarded = true := by
  unfold IconLabel.badgeStep IconLabel.hideBadge at h
  split at h
  all_goals try split at h
  all_goals try split at h
  all_goals try split at h
  all_goals try split at h
  all_goals
    first
      | exact Option.noConfusion h
      | (obtain rfl := Option.some.inj h
         intro x hx
         fin_cases hx <;> rfl)

/-- Unfolding of a successful `setValue`: the badge section returned, and the
result assembles the phase states and writes in source order. -/
theorem IconLabel.setValue_inv (st : IconLabel) (l d : Option String)
    (o : Option IIconLabelOptions) (p : IconLabel × List DomWrite)
    (h : st.setValue l d o = some p) :
    ∃ q, ((((((st.colorStep o).1.classStep o).1.titleStep o).1.labelStep l o).1.descStep d).1.badgeStep o) = some q ∧
      p = (q.1,
        (st.colorStep o).2 ++ ((st.colorStep o).1.classStep o).2 ++
          (((st.colorStep o).1.classStep o).1.titleStep o).2 ++
          ((((st.colorStep o).1.classStep o).1.titleStep o).1.labelStep l o).2 ++
          (((((st.colorStep o).1.classStep o).1.titleStep o).1.labelStep l o).1.descStep d).2 ++
          q.2) := by
  simp only [IconLabel.setValue] at h
  cases hb : (((((st.colorStep o).1.classStep o).1.titleStep o).1.labelStep l o).1.descStep d).1.badgeStep o with
  | none => rw [hb] at h; exact Option.noConfusion h
  | some q => rw [hb] at h; exact ⟨q, rfl, (Option.some.inj h).symm⟩

/-- Hiding with no badge present does nothing. -/
theorem IconLabel.hideBadge_none (st : IconLabel) (hn : st.badgeNode = none) :
    st.hideBadge = (st, []) := by
  unfold IconLabel.hideBadge
  rw [hn]

/-- After a successful `setValue` the widget is settled on its arguments. -/
theorem IconLabel.setValue_applied (st : IconLabel) (l d : Option String)
    (o : Option IIconLabelOptions) (p : IconLabel × List DomWrite)
    (h : st.setValue l d o = some p) : p.1.Applied l d o := by
  obtain ⟨q, hb, hp⟩ := st.setValue_inv l d o p h
  obtain ⟨f1, f2, f3, f4, f5, _, _, _⟩ := IconLabel.badgeStep_frame _ o q hb
  subst hp
  refine ⟨?_, ?_, ?_⟩
  · unfold domSettled
    rw [f1, f2, f3]
    exact domSettled_after (st.colorStep o).1.domNode o
  · rw [f4]
    exact LabelNode.setLabel_settles
      (((st.colorStep o).1.classStep o).1.titleStep o).1.labelNode
      (l.getD "") (o.bind (fun x => x.matchList))
  · rw [f5]
    exact descSettled_after
      ((((st.colorStep o).1.classStep o).1.titleStep o).1.labelStep l o).1.descriptionNode d

/-- On a widget already settled on the arguments, `setValue` emits only
unguarded writes (the container color style and the badge section). -/
theorem IconLabel.setValue_applied_writes (st : IconLabel) (l d : Option String)
    (o : Option IIconLabelOptions) (p : IconLabel × List DomWrite)
    (happ : st.Applied l d o) (h : st.setValue l d o = some p) :
    ∀ x ∈ p.2, x.unguarded = true := by
  obtain ⟨hdom, hlab, hdesc⟩ := happ
  obtain ⟨q, hb, hp⟩ := st.setValue_inv l d o p h
  obtain ⟨c1, c2, c3, c4, c5, c6⟩ := IconLabel.colorStep_frame st o
  have hdom1 : domSettled (st.colorStep o).1.domNode o := by
    unfold domSettled at hdom ⊢
    rw [c1, c2, c3]
    exact hdom
  have e2 : (st.colorStep o).1.classStep o = ((st.colorStep o).1, []) := by
    apply IconLabel.classStep_skip
    rcases hdom1 with hh | ⟨hh, _⟩
    · exact Or.inl hh
    · exact Or.inr hh
  have e3 : (st.colorStep o).1.titleStep o = ((st.colorStep o).1, []) := by
    apply IconLabel.titleStep_skip
    rcases hdom1 with hh | ⟨_, hh⟩
    · exact Or.inl hh
    · exact Or.inr hh
  have e4 : (st.colorStep o).1.labelStep l o = ((st.colorStep o).1, []) := by
    apply IconLabel.labelStep_skip
    rw [c4]
    exact hlab
  have e5 : (st.colorStep o).1.descStep d = ((st.colorStep o).1, []) := by
    apply IconLabel.descStep_skip
    rw [c5]
    exact hdesc
  simp only [e2, e3, e4, e5] at hb hp
  subst hp
  intro x hx
  simp only [List.mem_append, List.not_mem_nil, or_false] at hx
  rcases hx with hx | hx
  · exact IconLabel.colorStep_writes st o x hx
  · exact IconLabel.badgeStep_writes _ o q hb x hx

/-- On a widget already settled on the arguments, with no options and no
badge element, `setValue` does nothing at all. -/
theorem IconLabel.setValue_settled_none_noop (st : IconLabel) (l d : Option String)
    (p : IconLabel × List DomWrite)
    (happ : st.Applied l d none) (hn : st.badgeNode = none)
    (h : st.setValue l d none = some p) : p = (st, []) := by
  obtain ⟨hdom, hlab, hdesc⟩ := happ
  obtain ⟨q, hb, hp⟩ := st.setValue_inv l d none p h
  have e2 : st.classStep none = (st, []) := by
    apply IconLabel.classStep_skip
    rcases hdom with hh | ⟨hh, _⟩
    · exact Or.inl hh
    · exact Or.inr hh
  have e3 : st.titleStep none = (st, []) := by
    apply IconLabel.titleStep_skip
    rcases hdom with hh | ⟨_, hh⟩
    · exact Or.inl hh
    · exact Or.inr hh
  have e4 : st.labelStep l none = (st, []) := IconLabel.labelStep_skip st l none hlab
  have e5 : st.descStep d = (st, []) := IconLabel.descStep_skip st d hdesc
  have hbadge : st.badgeStep none = some (st, []) := by
    show some st.hideBadge = some (st, [])
    rw [IconLabel.hideBadge_none st hn]
  simp only [IconLabel.colorStep_none, e2, e3, e4, e5, hbadge] at hb hp
  obtain rfl := Option.some.inj hb
  simpa using hp

/-- The class setter leaves the rest of the element untouched. -/
theorem FastLabelNode.setClassName_element_frame (n : FastLabelNode) (v : String) :
    (n.setClassName v).1.element.textContent = n.element.textContent ∧
    (n.setClassName v).1.element.title = n.element.title ∧
    (n.setClassName v).1.element.marginLeft = n.element.marginLeft ∧
    (n.setClassName v).1.element.styleColor = n.element.styleColor := by
  simp only [FastLabelNode.setClassName]
  split <;> exact ⟨rfl, rfl, rfl, rfl⟩

/-- The title setter leaves the rest of the element untouched. -/
theorem FastLabelNode.setTitle_element_frame (n : FastLabelNode) (v : String) :
    (n.setTitle v).1.element.textContent = n.element.textContent ∧
    (n.setTitle v).1.element.className = n.element.className ∧
    (n.setTitle v).1.element.marginLeft = n.element.marginLeft ∧
    (n.setTitle v).1.element.styleColor = n.element.styleColor := by
  simp only [FastLabelNode.setTitle]
  split <;> exact ⟨rfl, rfl, rfl, rfl⟩

/-- On a non-disposed, class-consistent node the class setter leaves the
element carrying the class. -/
theorem FastLabelNode.setClassName_element (n : FastLabelNode) (v : String)
    (hd : n.disposed = false) (hc : n.classConsistent = true) :
    (n.setClassName v).1.element.className = v := by
  by_cases hcc : n._className = some v
  · rw [FastLabelNode.setClassName_skip n v (Or.inr hcc)]
    unfold FastLabelNode.classConsistent at hc
    rw [hcc] at hc
    simpa using hc
  · simp [FastLabelNode.setClassName, hd, hcc]

/-- On a non-disposed, title-consistent node the title setter leaves the
element carrying the title. -/
theorem FastLabelNode.setTitle_element (n : FastLabelNode) (v : String)
    (hd : n.disposed = false) (hc : n.titleConsistent = true) :
    (n.setTitle v).1.element.title = v := by
  by_cases hcc : n._title = some v
  · rw [FastLabelNode.setTitle_skip n v (Or.inr hcc)]
    unfold FastLabelNode.titleConsistent at hc
    rw [hcc] at hc
    simpa using hc
  · simp [FastLabelNode.setTitle, hd, hcc]

/-- On a non-disposed, margin-consistent node the empty setter leaves the
element's margin reflecting the flag. -/
theorem FastLabelNode.setEmpty_element (n : FastLabelNode) (b : Bool)
    (hd : n.disposed = false) (hm : n.marginConsistent = true) :
    (n.setEmpty b).1.element.marginLeft = (if b then some "0" else none) := by
  by_cases hcc : n._empty = some b
  · rw [FastLabelNode.setEmpty_skip n b (Or.inr hcc)]
    unfold FastLabelNode.marginConsistent at hm
    rw [hcc] at hm
    simpa using hm
  · simp [FastLabelNode.setEmpty, hd, hcc]

/-- The text setter preserves margin consistency (it touches neither the
cached empty flag nor the element's margin). -/
theorem FastLabelNode.setTextContent_marginConsistent (n : FastLabelNode) (v : String) :
    (n.setTextContent v).1.marginConsistent = n.marginConsistent := by
  simp only [FastLabelNode.setTextContent]
  split <;> rfl

/-- The class setter preserves title consistency. -/
theorem FastLabelNode.setClassName_titleConsistent (n : FastLabelNode) (v : String) :
    (n.setClassName v).1.titleConsistent = n.titleConsistent := by
  simp only [FastLabelNode.setClassName]
  split <;> rfl

/-- The color step preserves the container's class and title consistency and
the non-color element state. -/
theorem IconLabel.colorStep_consistency (st : IconLabel) (o : Option IIconLabelOptions) :
    (st.colorStep o).1.domNode.classConsistent = st.domNode.classConsistent ∧
    (st.colorStep o).1.domNode.titleConsistent = st.domNode.titleConsistent ∧
    (st.colorStep o).1.domNode.element.className = st.domNode.element.className ∧
    (st.colorStep o).1.domNode.element.title = st.domNode.element.title := by
  cases o <;> exact ⟨rfl, rfl, rfl, rfl⟩

/-- The phases before the badge section never touch the badge. -/
theorem IconLabel.phases_badgeNode (st : IconLabel) (l d : Option String)
    (o : Option IIconLabelOptions) :
    (((((st.colorStep o).1.classStep o).1.titleStep o).1.labelStep l o).1.descStep d).1.badgeNode
      = st.badgeNode := by
  cases o <;> rfl

/-- After a successful `setValue` on a widget with a non-disposed plain label
node, the label node caches the applied label text. -/
theorem IconLabel.setValue_labelCache (st : IconLabel) (l d : Option String)
    (o : Option IIconLabelOptions) (p : IconLabel × List DomWrite)
    (n : FastLabelNode) (hl : st.labelNode = LabelNode.fast n)
    (hnd : n.disposed = false) (h : st.setValue l d o = some p) :
    labelTextCache p.1.labelNode = some (l.getD "") := by
  obtain ⟨q, hb, hp⟩ := st.setValue_inv l d o p h
  obtain ⟨_, _, _, f4, _, _, _, _⟩ := IconLabel.badgeStep_frame _ o q hb
  subst hp
  rw [f4]
  have hchain : (((st.colorStep o).1.classStep o).1.titleStep o).1.labelNode = st.labelNode :=
    (IconLabel.colorStep_frame st o).2.2.2.1
  show labelTextCache
    ((((((st.colorStep o).1.classStep o).1.titleStep o).1.labelNode).setLabel (l.getD "")
      (o.bind (fun x => x.matchList))).1) = some (l.getD "")
  rw [hchain, hl]
  show labelTextCache (LabelNode.fast (n.setTextContent (l.getD "")).1) = some (l.getD "")
  rw [labelTextCache]
  exact n.setTextContent_cache _ hnd

/-- After a successful `setValue` on a widget with a non-disposed container
node, the container caches the computed class and title, and (when it was
consistent) the element carries them. -/
theorem IconLabel.setValue_domCache (st : IconLabel) (l d : Option String)
    (o : Option IIconLabelOptions) (p : IconLabel × List DomWrite)
    (hdd : st.domNode.disposed = false) (h : st.setValue l d o = some p) :
    p.1.domNode._className = some (computedClassName o) ∧
    p.1.domNode._title = some (computedTitle o) ∧
    (st.domNode.classConsistent = true →
      p.1.domNode.element.className = computedClassName o) ∧
    (st.domNode.titleConsistent = true →
      p.1.domNode.element.title = computedTitle o) := by
  obtain ⟨q, hb, hp⟩ := st.setValue_inv l d o p h
  obtain ⟨f1, f2, f3, _, _, f6, f7, _⟩ := IconLabel.badgeStep_frame _ o q hb
  subst hp
  obtain ⟨c1, c2, c3, _, _, _⟩ := IconLabel.colorStep_frame st o
  obtain ⟨k1, k2, k3, k4⟩ := IconLabel.colorStep_consistency st o
  have hd1 : (st.colorStep o).1.domNode.disposed = false := by rw [c1]; exact hdd
  have hd2 : ((st.colorStep o).1.domNode.setClassName (computedClassName o)).1.disposed = false := by
    rw [(FastLabelNode.setClassName_frame _ _).1]; exact hd1
  refine ⟨?_, ?_, ?_, ?_⟩
  · rw [f2]
    show (((st.colorStep o).1.domNode.setClassName (computedClassName o)).1.setTitle
      (computedTitle o)).1._className = some (computedClassName o)
    rw [(FastLabelNode.setTitle_frame _ _).2.2.1]
    exact FastLabelNode.setClassName_cache _ _ hd1
  · rw [f3]
    exact FastLabelNode.setTitle_cache _ _ hd2
  · intro hcons
    rw [f6]
    show (((st.colorStep o).1.domNode.setClassName (computedClassName o)).1.setTitle
      (computedTitle o)).1.element.className = computedClassName o
    rw [(FastLabelNode.setTitle_element_frame _ _).2.1]
    apply FastLabelNode.setClassName_element _ _ hd1
    rw [k1]
    exact hcons
  · intro hcons
    rw [f7]
    apply FastLabelNode.setTitle_element _ _ hd2
    rw [FastLabelNode.setClassName_titleConsistent, k2]
    exact hcons

/-- After a successful `setValue` on a widget with a non-disposed description
node, the description node caches the applied text and emptiness, and (when
it was margin-consistent) the element's margin reflects the emptiness. -/
theorem IconLabel.setValue_descCache (st : IconLabel) (l d : Option String)
    (o : Option IIconLabelOptions) (p : IconLabel × List DomWrite)
    (hsd : st.descriptionNode.disposed = false) (h : st.setValue l d o = some p) :
    p.1.descriptionNode._textContent = some (d.getD "") ∧
    p.1.descriptionNode._empty = some (!truthyStr d) ∧
    (st.descriptionNode.marginConsistent = true →
      p.1.descriptionNode.element.marginLeft = (if truthyStr d then none else some "0")) := by
  obtain ⟨q, hb, hp⟩ := st.setValue_inv l d o p h
  obtain ⟨_, _, _, _, f5, _, _, _⟩ := IconLabel.badgeStep_frame _ o q hb
  subst hp
  have hchain : ((((st.colorStep o).1.classStep o).1.titleStep o).1.labelStep l o).1.descriptionNode
      = st.descriptionNode := (IconLabel.colorStep_frame st o).2.2.2.2.1
  have key : ∀ m : FastLabelNode, m = st.descriptionNode →
      ((m.setTextContent (d.getD "")).1.setEmpty (!truthyStr d)).1._textContent = some (d.getD "") ∧
      ((m.setTextContent (d.getD "")).1.setEmpty (!truthyStr d)).1._empty = some (!truthyStr d) ∧
      (st.descriptionNode.marginConsistent = true →
        ((m.setTextContent (d.getD "")).1.setEmpty (!truthyStr d)).1.element.marginLeft =
          (if truthyStr d then none else some "0")) := by
    rintro m rfl
    have ht1 : (st.descriptionNode.setTextContent (d.getD "")).1.disposed = false := by
      rw [(FastLabelNode.setTextContent_frame _ _).1]; exact hsd
    refine ⟨?_, ?_, ?_⟩
    · rw [(FastLabelNode.setEmpty_frame _ _).2.1]
      exact FastLabelNode.setTextContent_cache _ _ hsd
    · exact FastLabelNode.setEmpty_cache _ _ ht1
    · intro hm
      have : (st.descriptionNode.setTextContent (d.getD "")).1.marginConsistent = true := by
        rw [FastLabelNode.setTextContent_marginConsistent]; exact hm
      have he := FastLabelNode.setEmpty_element _ (!truthyStr d) ht1 this
      rw [he]
      cases hcase : truthyStr d <;> simp [hcase]
  rw [f5]
  exact key _ hchain

/-- The badge section with a badge option and no existing badge element:
creation, coloring from `options.color`, flex container, append, then
letter, title and show. -/
theorem IconLabel.badgeStep_create (st : IconLabel) (opts : IIconLabelOptions)
    (b : BadgeOption) (c : Color) (hb : opts.badge = some b)
    (hc : opts.color = some c) (hn : st.badgeNode = none) :
    st.badgeStep (some opts) = some
      ({ st with
           badgeNode := some
             { className := "label-badge", backgroundColor := c.str,
               color := (if c.isDarker then Color.white else Color.black).str,
               innerHTML := b.letter, title := b.title, styleDisplay := "" },
           domNode := { st.domNode with
             element := { st.domNode.element with styleDisplay := some "flex" } } },
       [DomWrite.createBadge,
        DomWrite.className ElemId.badgeEl "label-badge",
        DomWrite.backgroundColor ElemId.badgeEl c.str,
        DomWrite.styleColor ElemId.badgeEl
          (if c.isDarker then Color.white else Color.black).str,
        DomWrite.styleDisplay ElemId.container "flex",
        DomWrite.appendBadge,
        DomWrite.innerHTML ElemId.badgeEl b.letter,
        DomWrite.title ElemId.badgeEl b.title,
        DomWrite.styleDisplay ElemId.badgeEl ""]) := by
  unfold IconLabel.badgeStep
  dsimp only
  rw [hb, hn, hc]

/-- The badge section with a badge option and an existing badge element:
letter, title and show only. -/
theorem IconLabel.badgeStep_update (st : IconLabel) (opts : IIconLabelOptions)
    (b : BadgeOption) (bn : BadgeNode) (hb : opts.badge = some b)
    (hn : st.badgeNode = some bn) :
    st.badgeStep (some opts) = some
      ({ st with badgeNode := some ({ bn with innerHTML := b.letter, title := b.title, styleDisplay := "" }) },
       [DomWrite.innerHTML ElemId.badgeEl b.letter,
        DomWrite.title ElemId.badgeEl b.title,
        DomWrite.styleDisplay ElemId.badgeEl ""]) := by
  unfold IconLabel.badgeStep
  dsimp only
  rw [hb, hn]

/-- The badge section without a badge option, when a badge element exists:
the element is hidden, not removed, and otherwise untouched. -/
theorem IconLabel.badgeStep_hide (st : IconLabel) (o : Option IIconLabelOptions)
    (bn : BadgeNode) (hb : o.bind (fun x => x.badge) = none)
    (hn : st.badgeNode = some bn) :
    st.badgeStep o = some
      ({ st with badgeNode := some { bn with styleDisplay := "none" } },
       [DomWrite.styleDisplay ElemId.badgeEl "none"]) := by
  cases o with
  | none =>
    unfold IconLabel.badgeStep IconLabel.hideBadge
    dsimp only
    rw [hn]
  | some opts =>
    have hbn : opts.badge = none := by simpa using hb
    unfold IconLabel.badgeStep IconLabel.hideBadge
    dsimp only
    rw [hbn, hn]

/-- A successful `setValue` whose options carry no badge leaves the absence
of a badge element unchanged. -/
theorem IconLabel.setValue_no_badge_creation (st : IconLabel) (l d : Option String)
    (o : Option IIconLabelOptions) (p : IconLabel × List DomWrite)
    (hb : o.bind (fun x => x.badge) = none) (hn : st.badgeNode = none)
    (h : st.setValue l d o = some p) : p.1.badgeNode = none := by
  obtain ⟨q, hq, hp⟩ := st.setValue_inv l d o p h
  subst hp
  have hchain := IconLabel.phases_badgeNode st l d o
  have hn5 : (((((st.colorStep o).1.classStep o).1.titleStep o).1.labelStep l o).1.descStep d).1.badgeNode = none :=
    hchain.trans hn
  have hhide : (((((st.colorStep o).1.classStep o).1.titleStep o).1.labelStep l o).1.descStep d).1.badgeStep o =
      some ((((((st.colorStep o).1.classStep o).1.titleStep o).1.labelStep l o).1.descStep d).1, []) := by
    cases o with
    | none =>
      unfold IconLabel.badgeStep
      dsimp only
      rw [IconLabel.hideBadge_none _ hn5]
    | some opts =>
      have hbn : opts.badge = none := by simpa using hb
      unfold IconLabel.badgeStep
      dsimp only
      rw [hbn, IconLabel.hideBadge_none _ hn5]
  rw [hhide] at hq
  obtain rfl := Option.some.inj hq
  exact hn5

/-- The color step never emits the badge-creation write. -/
theorem IconLabel.colorStep_no_create (st : IconLabel) (o : Option IIconLabelOptions) :
    (st.colorStep o).2.all (fun x => !x.isCreate) = true := by
  cases o <;> rfl

/-- The text setter never emits the badge-creation write. -/
theorem FastLabelNode.setTextContent_no_create (n : FastLabelNode) (v : String) :
    (n.setTextContent v).2.all (fun x => !x.isCreate) = true := by
  simp only [FastLabelNode.setTextContent]
  split <;> rfl

/-- The class setter never emits the badge-creation write. -/
theorem FastLabelNode.setClassName_no_create (n : FastLabelNode) (v : String) :
    (n.setClassName v).2.all (fun x => !x.isCreate) = true := by
  simp only [FastLabelNode.setClassName]
  split <;> rfl

/-- The title setter never emits the badge-creation write. -/
theorem FastLabelNode.setTitle_no_create (n : FastLabelNode) (v : String) :
    (n.setTitle v).2.all (fun x => !x.isCreate) = true := by
  simp only [FastLabelNode.setTitle]
  split <;> rfl

/-- The empty setter never emits the badge-creation write. -/
theorem FastLabelNode.setEmpty_no_create (n : FastLabelNode) (v : Bool) :
    (n.setEmpty v).2.all (fun x => !x.isCreate) = true := by
  simp only [FastLabelNode.setEmpty]
  split <;> rfl

/-- The highlight renderer never emits the badge-creation write. -/
theorem HighlightedLabel.set_no_create (h : HighlightedLabel) (t : String)
    (m : Option (List IMatch)) :
    (h.set t m).2.all (fun x => !x.isCreate) = true := by
  simp only [HighlightedLabel.set]
  split <;> rfl

/-- Writing the label never emits the badge-creation write. -/
theorem LabelNode.setLabel_no_create (ln : LabelNode) (t : String)
    (m : Option (List IMatch)) :
    (ln.setLabel t m).2.all (fun x => !x.isCreate) = true := by
  cases ln with
  | fast n => exact n.setTextContent_no_create t
  | highlighted hh => exact hh.set_no_create t m

/-- The description step never emits the badge-creation write. -/
theorem IconLabel.descStep_no_create (st : IconLabel) (d : Option String) :
    (st.descStep d).2.all (fun x => !x.isCreate) = true := by
  unfold IconLabel.descStep
  simp only [List.all_append, Bool.and_eq_true]
  exact ⟨FastLabelNode.setTextContent_no_create _ _, FastLabelNode.setEmpty_no_create _ _⟩

/-- A `setValue` call on a widget that already has a badge element never
emits the badge-creation write: the element is reused, not duplicated. -/
theorem IconLabel.setValue_no_recreate (st : IconLabel) (l d : Option String)
    (o : Option IIconLabelOptions) (p : IconLabel × List DomWrite) (bn : BadgeNode)
    (hn : st.badgeNode = some bn) (h : st.setValue l d o = some p) :
    p.2.all (fun x => !x.isCreate) = true := by
  obtain ⟨q, hq, hp⟩ := st.setValue_inv l d o p h
  subst hp
  have hn5 : (((((st.colorStep o).1.classStep o).1.titleStep o).1.labelStep l o).1.descStep d).1.badgeNode = some bn :=
    (IconLabel.phases_badgeNode st l d o).trans hn
  have hbq : q.2.all (fun x => !x.isCreate) = true := by
    cases o with
    | none =>
      rw [IconLabel.badgeStep_hide _ none bn rfl hn5] at hq
      obtain rfl := Option.some.inj hq
      rfl
    | some opts =>
      cases hbo : opts.badge with
      | none =>
        rw [IconLabel.badgeStep_hide _ (some opts) bn (by simpa using hbo) hn5] at hq
        obtain rfl := Option.some.inj hq
        rfl
      | some b =>
        rw [IconLabel.badgeStep_update _ opts b bn hbo hn5] at hq
        obtain rfl := Option.some.inj hq
        rfl
  simp only [List.all_append, Bool.and_eq_true]
  exact ⟨⟨⟨⟨⟨IconLabel.colorStep_no_create st o,
    FastLabelNode.setClassName_no_create _ _⟩,
    FastLabelNode.setTitle_no_create _ _⟩,
    LabelNode.setLabel_no_create _ _ _⟩,
    IconLabel.descStep_no_create _ d⟩, hbq⟩

/-- A disposed widget is settled on any arguments: all its wrapped nodes
carry the disposed flag, so every guarded setter skips. -/
theorem IconLabel.dispose_applied (st : IconLabel) (l d : Option String)
    (o : Option IIconLabelOptions) : (st.dispose).Applied l d o := by
  refine ⟨Or.inl rfl, ?_, Or.inl rfl⟩
  show labelSettled (st.labelNode.dispose) (l.getD "") (o.bind (fun x => x.matchList))
  cases st.labelNode with
  | fast n => exact Or.inl rfl
  | highlighted hh => exact Or.inl rfl

/-- A `setValue` whose options request a badge with a color, on a widget
with no badge element yet, creates the badge: class, background from the
color, contrast foreground, letter, title, shown. -/
theorem IconLabel.setValue_badge_created (st : IconLabel) (l d : Option String)
    (opts : IIconLabelOptions) (b : BadgeOption) (c : Color)
    (p : IconLabel × List DomWrite)
    (hb : opts.badge = some b) (hc : opts.color = some c) (hn : st.badgeNode = none)
    (h : st.setValue l d (some opts) = some p) :
    p.1.badgeNode = some
      { className := "label-badge", backgroundColor := c.str,
        color := (if c.isDarker then Color.white else Color.black).str,
        innerHTML := b.letter, title := b.title, styleDisplay := "" } := by
  obtain ⟨q, hq, hp⟩ := st.setValue_inv l d (some opts) p h
  subst hp
  have hn5 : (((((st.colorStep (some opts)).1.classStep (some opts)).1.titleStep (some opts)).1.labelStep l (some opts)).1.descStep d).1.badgeNode = none :=
    (IconLabel.phases_badgeNode st l d (some opts)).trans hn
  rw [IconLabel.badgeStep_create _ opts b c hb hc hn5] at hq
  obtain rfl := Option.some.inj hq
  rfl

/-- A `setValue` without a badge option, on a widget with a badge element,
hides that element in place and changes nothing else about it. -/
theorem IconLabel.setValue_badge_hidden (st : IconLabel) (l d : Option String)
    (o : Option IIconLabelOptions) (bn : BadgeNode) (p : IconLabel × List DomWrite)
    (hb : o.bind (fun x => x.badge) = none) (hn : st.badgeNode = some bn)
    (h : st.setValue l d o = some p) :
    p.1.badgeNode = some { bn with styleDisplay := "none" } := by
  obtain ⟨q, hq, hp⟩ := st.setValue_inv l d o p h
  subst hp
  have hn5 : (((((st.colorStep o).1.classStep o).1.titleStep o).1.labelStep l o).1.descStep d).1.badgeNode = some bn :=
    (IconLabel.phases_badgeNode st l d o).trans hn
  rw [IconLabel.badgeStep_hide _ o bn hb hn5] at hq
  obtain rfl := Option.some.inj hq
  rfl

/-- A `setValue` with a badge option, on a widget with a badge element,
updates only the badge's letter, title and visibility in place. -/
theorem IconLabel.setValue_badge_updated (st : IconLabel) (l d : Option String)
    (opts : IIconLabelOptions) (b : BadgeOption) (bn : BadgeNode)
    (p : IconLabel × List DomWrite)
    (hb : opts.badge = some b) (hn : st.badgeNode = some bn)
    (h : st.setValue l d (some opts) = some p) :
    p.1.badgeNode = some ({ bn with innerHTML := b.letter, title := b.title, styleDisplay := "" }) := by
  obtain ⟨q, hq, hp⟩ := st.setValue_inv l d (some opts) p h
  subst hp
  have hn5 : (((((st.colorStep (some opts)).1.classStep (some opts)).1.titleStep (some opts)).1.labelStep l (some opts)).1.descStep d).1.badgeNode = some bn :=
    (IconLabel.phases_badgeNode st l d (some opts)).trans hn
  rw [IconLabel.badgeStep_update _ opts b bn hb hn5] at hq
  obtain rfl := Option.some.inj hq
  rfl

/-! Claim theorems. -/

/-- C6: every setter of the memoized node wrapper (textContent, className,
title, empty) is a strict no-op — element untouched, no write, state
unchanged — when the node is disposed or the incoming value equals the
last-applied value; `dispose` sets the disposed flag and every setter
preserves it, so after `dispose` all setters are permanently no-ops. -/
theorem fastLabelNode_setters_guarded (n : FastLabelNode) (s : String) (b : Bool) :
    (n.disposed = true ∨ n._textContent = some s → n.setTextContent s = (n, [])) ∧
    (n.disposed = true ∨ n._className = some s → n.setClassName s = (n, [])) ∧
    (n.disposed = true ∨ n._title = some s → n.setTitle s = (n, [])) ∧
    (n.disposed = true ∨ n._empty = some b → n.setEmpty b = (n, [])) ∧
    n.dispose.disposed = true ∧
    (n.setTextContent s).1.disposed = n.disposed ∧
    (n.setClassName s).1.disposed = n.disposed ∧
    (n.setTitle s).1.disposed = n.disposed ∧
    (n.setEmpty b).1.disposed = n.disposed :=
  ⟨FastLabelNode.setTextContent_skip n s, FastLabelNode.setClassName_skip n s,
   FastLabelNode.setTitle_skip n s, FastLabelNode.setEmpty_skip n b, rfl,
   (FastLabelNode.setTextContent_frame n s).1, (FastLabelNode.setClassName_frame n s).1,
   (FastLabelNode.setTitle_frame n s).1, (FastLabelNode.setEmpty_frame n b).1⟩

/-- C6 witness: on a concrete disposed node, the text setter is a no-op. -/
theorem fastLabelNode_setters_guarded_witness :
    ((FastLabelNode.create ElemId.labelEl (ElemState.fresh "label-name")).dispose).setTextContent "x" =
      ((FastLabelNode.create ElemId.labelEl (ElemState.fresh "label-name")).dispose, []) :=
  (fastLabelNode_setters_guarded
    ((FastLabelNode.create ElemId.labelEl (ElemState.fresh "label-name")).dispose) "x" true).1
    (Or.inl rfl)

/-- C5: after any returning `setValue` on a widget whose description node is
live and margin-consistent, the description node's empty flag is `true`
exactly when the description is absent or empty (the element's margin is
collapsed to `'0'`), and `false` with the margin cleared otherwise. -/
theorem setValue_description_empty_flag (st : IconLabel) (l d : Option String)
    (o : Option IIconLabelOptions) (s : IconLabel)
    (hsd : st.descriptionNode.disposed = false)
    (hm : st.descriptionNode.marginConsistent = true)
    (h : IconLabel.afterSetValue st l d o = some s) :
    s.descriptionNode._empty = some (!truthyStr d) ∧
    s.descriptionNode.element.marginLeft = (if truthyStr d then none else some "0") := by
  unfold IconLabel.afterSetValue at h
  cases hv : st.setValue l d o with
  | none => rw [hv] at h; exact Option.noConfusion h
  | some p =>
    rw [hv] at h
    obtain rfl := Option.some.inj h
    obtain ⟨_, h2, h3⟩ := IconLabel.setValue_descCache st l d o p hsd hv
    exact ⟨h2, h3 hm⟩

/-- C5 witness: a fresh widget, empty then non-empty description. -/
theorem setValue_description_empty_flag_witness :
    (((IconLabel.afterSetValue (IconLabel.create false) none (some "x") none).getD
        (IconLabel.create false)).descriptionNode._empty = some (!truthyStr (some "x")) ∧
      ((IconLabel.afterSetValue (IconLabel.create false) none (some "x") none).getD
        (IconLabel.create false)).descriptionNode.element.marginLeft =
        (if truthyStr (some "x") then none else some "0")) :=
  setValue_description_empty_flag (IconLabel.create false) none (some "x") none _ rfl rfl rfl

/-- C8: every returning `setValue` on a live, consistent container recomputes
and applies the full class string — the base class, then the extra classes,
then `italic` exactly when the italic option is set — independently of any
previous call, and applies the options title (empty string when absent). -/
theorem setValue_container_class_title (st : IconLabel) (l d : Option String)
    (o : Option IIconLabelOptions) (s : IconLabel)
    (hdd : st.domNode.disposed = false)
    (hcc : st.domNode.classConsistent = true)
    (htc : st.domNode.titleConsistent = true)
    (h : IconLabel.afterSetValue st l d o = some s) :
    s.domNode._className = some (String.intercalate " " (classList o)) ∧
    s.domNode.element.className = String.intercalate " " (classList o) ∧
    s.domNode._title = some (computedTitle o) ∧
    s.domNode.element.title = computedTitle o := by
  unfold IconLabel.afterSetValue at h
  cases hv : st.setValue l d o with
  | none => rw [hv] at h; exact Option.noConfusion h
  | some p =>
    rw [hv] at h
    obtain rfl := Option.some.inj h
    obtain ⟨h1, h2, h3, h4⟩ := IconLabel.setValue_domCache st l d o p hdd hv
    exact ⟨h1, h3 hcc, h2, h4 htc⟩

/-- C8 witness: a fresh widget with extra classes, the italic flag and a
title. -/
theorem setValue_container_class_title_witness :
    ((IconLabel.afterSetValue (IconLabel.create false) (some "t") none
        (some { extraClasses := some ["a", "b"], italic := true, title := some "tt" })).getD
          (IconLabel.create false)).domNode._className =
      some (String.intercalate " "
        (classList (some { extraClasses := some ["a", "b"], italic := true, title := some "tt" }))) ∧
    ((IconLabel.afterSetValue (IconLabel.create false) (some "t") none
        (some { extraClasses := some ["a", "b"], italic := true, title := some "tt" })).getD
          (IconLabel.create false)).domNode.element.className =
      String.intercalate " "
        (classList (some { extraClasses := some ["a", "b"], italic := true, title := some "tt" })) ∧
    ((IconLabel.afterSetValue (IconLabel.create false) (some "t") none
        (some { extraClasses := some ["a", "b"], italic := true, title := some "tt" })).getD
          (IconLabel.create false)).domNode._title =
      some (computedTitle (some { extraClasses := some ["a", "b"], italic := true, title := some "tt" })) ∧
    ((IconLabel.afterSetValue (IconLabel.create false) (some "t") none
        (some { extraClasses := some ["a", "b"], italic := true, title := some "tt" })).getD
          (IconLabel.create false)).domNode.element.title =
      computedTitle (some { extraClasses := some ["a", "b"], italic := true, title := some "tt" }) :=
  setValue_container_class_title (IconLabel.create false) (some "t") none
    (some { extraClasses := some ["a", "b"], italic := true, title := some "tt" }) _ rfl rfl rfl rfl

/-- C9: a `setValue` call with no options argument leaves the container's
color style untouched, so a color applied by a previous call persists. -/
theorem setValue_no_options_keeps_color (st : IconLabel) (l d : Option String)
    (s : IconLabel) (h : IconLabel.afterSetValue st l d none = some s) :
    s.domNode.element.styleColor = st.domNode.element.styleColor := by
  unfold IconLabel.afterSetValue at h
  cases hv : st.setValue l d none with
  | none => rw [hv] at h; exact Option.noConfusion h
  | some p =>
    rw [hv] at h
    obtain rfl := Option.some.inj h
    obtain ⟨q, hq, hp⟩ := st.setValue_inv l d none p hv
    subst hp
    obtain ⟨_, _, _, _, _, _, _, f8⟩ := IconLabel.badgeStep_frame _ none q hq
    rw [f8]
    show ((st.domNode.setClassName (computedClassName none)).1.setTitle
      (computedTitle none)).1.element.styleColor = st.domNode.element.styleColor
    rw [(FastLabelNode.setTitle_element_frame _ _).2.2.2,
        (FastLabelNode.setClassName_element_frame _ _).2.2.2]

/-- C9 witness: a widget colored red by a previous call keeps the red color
through a later call without options. -/
theorem setValue_no_options_keeps_color_witness :
    ((IconLabel.afterSetValue coloredLabelState (some "b") none none).getD
        (IconLabel.create false)).domNode.element.styleColor =
      coloredLabelState.domNode.element.styleColor :=
  setValue_no_options_keeps_color coloredLabelState (some "b") none _ rfl

/-- C10: when a badge element already exists, a `setValue` with a badge
option updates only its letter, title and visibility — the background and
foreground colors assigned at creation stay, whatever color the new options
carry. -/
theorem setValue_badge_color_immutable (st : IconLabel) (l d : Option String)
    (opts : IIconLabelOptions) (b : BadgeOption) (bn : BadgeNode) (s : IconLabel)
    (hb : opts.badge = some b) (hn : st.badgeNode = some bn)
    (h : IconLabel.afterSetValue st l d (some opts) = some s) :
    s.badgeNode = some ({ bn with innerHTML := b.letter, title := b.title, styleDisplay := "" }) := by
  unfold IconLabel.afterSetValue at h
  cases hv : st.setValue l d (some opts) with
  | none => rw [hv] at h; exact Option.noConfusion h
  | some p =>
    rw [hv] at h
    obtain rfl := Option.some.inj h
    exact IconLabel.setValue_badge_updated st l d opts b bn p hb hn hv

/-- C10 witness: the red badge keeps its colors through a later call whose
options carry blue. -/
theorem setValue_badge_color_immutable_witness :
    ((IconLabel.afterSetValue badgedLabelState (some "a") none (some badgeOptions2)).getD
        (IconLabel.create false)).badgeNode =
      some ({ firstBadge with innerHTML := "N", title := "New", styleDisplay := "" }) :=
  setValue_badge_color_immutable badgedLabelState (some "a") none badgeOptions2
    { letter := "N", title := "New" } firstBadge _ rfl rfl rfl

/-- C1 counterexample: on a fresh widget, two identical `setValue` calls
whose options carry a color make the second call rewrite the container's
color style — a DOM style mutation beyond those of the first application. -/
theorem setValue_repeat_rewrites_color :
    IconLabel.repeatWrites (IconLabel.create false) (some "a") none (some colorOnlyOptions) =
      some [DomWrite.styleColor ElemId.container "red"] ∧
    some [DomWrite.styleColor ElemId.container "red"] ≠ (some [] : Option (List DomWrite)) :=
  ⟨rfl, by decide⟩

/-- C1 (amended): a repeated `setValue` with identical arguments produces no
writes through the memoized wrappers — every write of the second call is one
of the unguarded write points (the container color style, written whenever
options are present, and the badge mutations) — and when no options are
passed and no badge element exists, the second call writes nothing at all. -/
theorem setValue_repeat_only_unguarded (st : IconLabel) (l d : Option String)
    (o : Option IIconLabelOptions) (w : List DomWrite)
    (h : IconLabel.repeatWrites st l d o = some w) :
    w.all DomWrite.unguarded = true ∧
      (o = none → st.badgeNode = none → w = []) := by
  unfold IconLabel.repeatWrites at h
  cases h1 : st.setValue l d o with
  | none => rw [h1] at h; exact Option.noConfusion h
  | some p =>
    rw [h1] at h
    change (p.1.setValue l d o).map Prod.snd = some w at h
    cases h2 : p.1.setValue l d o with
    | none => rw [h2] at h; exact Option.noConfusion h
    | some p2 =>
      rw [h2] at h
      obtain rfl := Option.some.inj h
      constructor
      · exact List.all_eq_true.mpr (IconLabel.setValue_applied_writes p.1 l d o p2
          (IconLabel.setValue_applied st l d o p h1) h2)
      · rintro rfl hbn
        have hb1 : p.1.badgeNode = none :=
          IconLabel.setValue_no_badge_creation st l d none p rfl hbn h1
        have hres := IconLabel.setValue_settled_none_noop p.1 l d p2
          (IconLabel.setValue_applied st l d none p h1) hb1 h2
        rw [hres]

/-- C1 witness: a repeated call with no options on a fresh widget writes
nothing the second time. -/
theorem setValue_repeat_only_unguarded_witness :
    (([] : List DomWrite).all DomWrite.unguarded = true ∧
      ((none : Option IIconLabelOptions) = none →
        (IconLabel.create false).badgeNode = none → ([] : List DomWrite) = [])) :=
  setValue_repeat_only_unguarded (IconLabel.create false) (some "a") none none [] rfl

/-- C2 counterexample: after `dispose`, a `setValue` whose options carry a
color still writes the container's color style — a DOM mutation. -/
theorem dispose_setValue_writes_color :
    IconLabel.writesOfSetValue ((IconLabel.create false).dispose) (some "x") (some "d")
        (some colorOnlyOptions) =
      some [DomWrite.styleColor ElemId.container "red"] ∧
    some [DomWrite.styleColor ElemId.container "red"] ≠ (some [] : Option (List DomWrite)) :=
  ⟨rfl, by decide⟩

/-- C2 (amended): after `dispose` every returning `setValue` is a no-op
through the wrapped nodes — all remaining writes are the unguarded points:
the container color style (whenever options are passed) and the badge
creation or mutation writes; and a badge request without a color still
throws, disposed or not. -/
theorem dispose_setValue_only_unguarded (st : IconLabel) (l d : Option String)
    (o : Option IIconLabelOptions) (w : List DomWrite)
    (h : IconLabel.writesOfSetValue (st.dispose) l d o = some w) :
    w.all DomWrite.unguarded = true := by
  unfold IconLabel.writesOfSetValue at h
  cases h2 : (st.dispose).setValue l d o with
  | none => rw [h2] at h; exact Option.noConfusion h
  | some p =>
    rw [h2] at h
    obtain rfl := Option.some.inj h
    exact List.all_eq_true.mpr (IconLabel.setValue_applied_writes _ l d o p
      (IconLabel.dispose_applied st l d o) h2)

/-- C2 witness: the disposed fresh widget still writes the red color style,
an unguarded write point. -/
theorem dispose_setValue_only_unguarded_witness :
    ([DomWrite.styleColor ElemId.container "red"] : List DomWrite).all DomWrite.unguarded = true :=
  dispose_setValue_only_unguarded (IconLabel.create false) (some "x") (some "d")
    (some colorOnlyOptions) [DomWrite.styleColor ElemId.container "red"] rfl

/-- C3: requesting a badge with color `c` on a widget without one creates
the single badge element — class `label-badge`, background `c`, foreground
white when `c` is perceptually darker and black otherwise, shown with the
given letter and title; a later call without a badge option hides (does not
remove) that element; a further call with a badge option re-shows the same
element with its new letter and title, colors unchanged, and its write list
contains no badge-creation write. -/
theorem setValue_badge_lifecycle (st : IconLabel) (l1 l2 l3 d1 d2 d3 : Option String)
    (opts1 opts3 : IIconLabelOptions) (o2 : Option IIconLabelOptions)
    (b1 b3 : BadgeOption) (c : Color) (s1 s2 s3 : IconLabel) (w3 : List DomWrite)
    (hb1 : opts1.badge = some b1) (hc1 : opts1.color = some c)
    (hn : st.badgeNode = none)
    (h1 : IconLabel.afterSetValue st l1 d1 (some opts1) = some s1)
    (ho2 : o2.bind (fun x => x.badge) = none)
    (h2 : IconLabel.afterSetValue s1 l2 d2 o2 = some s2)
    (hb3 : opts3.badge = some b3)
    (h3 : IconLabel.afterSetValue s2 l3 d3 (some opts3) = some s3)
    (hw3 : IconLabel.writesOfSetValue s2 l3 d3 (some opts3) = some w3) :
    s1.badgeNode = some
      { className := "label-badge", backgroundColor := c.str,
        color := (if c.isDarker then Color.white else Color.black).str,
        innerHTML := b1.letter, title := b1.title, styleDisplay := "" } ∧
    s2.badgeNode = some
      { className := "label-badge", backgroundColor := c.str,
        color := (if c.isDarker then Color.white else Color.black).str,
        innerHTML := b1.letter, title := b1.title, styleDisplay := "none" } ∧
    s3.badgeNode = some
      { className := "label-badge", backgroundColor := c.str,
        color := (if c.isDarker then Color.white else Color.black).str,
        innerHTML := b3.letter, title := b3.title, styleDisplay := "" } ∧
    w3.all (fun x => !x.isCreate) = true := by
  unfold IconLabel.afterSetValue at h1 h2 h3
  unfold IconLabel.writesOfSetValue at hw3
  cases hv1 : st.setValue l1 d1 (some opts1) with
  | none => rw [hv1] at h1; exact Option.noConfusion h1
  | some p1 =>
    rw [hv1] at h1
    obtain rfl := Option.some.inj h1
    have a1 := IconLabel.setValue_badge_created st l1 d1 opts1 b1 c p1 hb1 hc1 hn hv1
    cases hv2 : p1.1.setValue l2 d2 o2 with
    | none => rw [hv2] at h2; exact Option.noConfusion h2
    | some p2 =>
      rw [hv2] at h2
      obtain rfl := Option.some.inj h2
      have a2 := IconLabel.setValue_badge_hidden p1.1 l2 d2 o2 _ p2 ho2 a1 hv2
      cases hv3 : p2.1.setValue l3 d3 (some opts3) with
      | none => rw [hv3] at h3; exact Option.noConfusion h3
      | some p3 =>
        rw [hv3] at h3
        rw [hv3] at hw3
        obtain rfl := Option.some.inj h3
        obtain rfl := Option.some.inj hw3
        have a3 := IconLabel.setValue_badge_updated p2.1 l3 d3 opts3 b3 _ p3 hb3 a2 hv3
        have a4 := IconLabel.setValue_no_recreate p2.1 l3 d3 (some opts3) p3 _ a2 hv3
        exact ⟨a1, a2, a3, a4⟩

/-- C3 witness: the red badge lifecycle on a fresh widget, hidden by a call
without options and re-shown with new letter and title by the blue options. -/
theorem setValue_badge_lifecycle_witness :
    badgedLabelState.badgeNode = some
      { className := "label-badge", backgroundColor := redColor.str,
        color := (if redColor.isDarker then Color.white else Color.black).str,
        innerHTML := "M", title := "Modified", styleDisplay := "" } ∧
    hiddenBadgeState.badgeNode = some
      { className := "label-badge", backgroundColor := redColor.str,
        color := (if redColor.isDarker then Color.white else Color.black).str,
        innerHTML := "M", title := "Modified", styleDisplay := "none" } ∧
    reShownBadgeState.badgeNode = some
      { className := "label-badge", backgroundColor := redColor.str,
        color := (if redColor.isDarker then Color.white else Color.black).str,
        innerHTML := "N", title := "New", styleDisplay := "" } ∧
    ([DomWrite.styleColor ElemId.container "blue", DomWrite.textContent ElemId.labelEl "c",
      DomWrite.innerHTML ElemId.badgeEl "N", DomWrite.title ElemId.badgeEl "New",
      DomWrite.styleDisplay ElemId.badgeEl ""] : List DomWrite).all (fun x => !x.isCreate) = true :=
  setValue_badge_lifecycle (IconLabel.create false) (some "a") (some "b") (some "c")
    none none none badgeOptions badgeOptions2 none
    { letter := "M", title := "Modified" } { letter := "N", title := "New" } redColor
    badgedLabelState hiddenBadgeState reShownBadgeState
    [DomWrite.styleColor ElemId.container "blue", DomWrite.textContent ElemId.labelEl "c",
      DomWrite.innerHTML ElemId.badgeEl "N", DomWrite.title ElemId.badgeEl "New",
      DomWrite.styleDisplay ElemId.badgeEl ""]
    rfl rfl rfl rfl rfl rfl rfl rfl rfl

/-- C4 counterexample: for the root-level file `/a.txt` the parent directory
is the path root `/`, yet `setFile` sets the description to the formatted
parent instead of omitting it. -/
theorem setFile_root_parent_not_omitted :
    (FileLabel.create "/a.txt" (fun s => s)).map (fun p => p.1.descriptionNode._textContent) =
      some (some "/") ∧
    dirname "/a.txt" = "/" ∧ ("/" : String) ≠ "" :=
  ⟨rfl, rfl, by decide⟩

/-- C4 (amended): `setFile` shows the path's basename as the label, the full
path as the container title, and the parent directory formatted by the
path-label collaborator as the description — the description is omitted
exactly when the parent is empty or `.` (no parent directory component),
not when the parent is the filesystem root. -/
theorem setFile_fields (st : IconLabel) (fsPath : String)
    (getPathLabel : String → String) (n : FastLabelNode) (s : IconLabel)
    (hl : st.labelNode = LabelNode.fast n) (hnd : n.disposed = false)
    (hdd : st.domNode.disposed = false) (hsd : st.descriptionNode.disposed = false)
    (h : (FileLabel.setFile st fsPath getPathLabel).map Prod.fst = some s) :
    labelTextCache s.labelNode = some (basename fsPath) ∧
    s.domNode._title = some fsPath ∧
    s.descriptionNode._textContent =
      some (if !(dirname fsPath == "") && !(dirname fsPath == ".")
            then getPathLabel (dirname fsPath) else "") := by
  simp only [FileLabel.setFile] at h
  rw [Option.map_eq_some'] at h
  obtain ⟨p, hv, hps⟩ := h
  subst hps
  refine ⟨?_, ?_, ?_⟩
  · have hres := IconLabel.setValue_labelCache st _ _ _ p n hl hnd hv
    simpa using hres
  · have hres := (IconLabel.setValue_domCache st _ _ _ p hdd hv).2.1
    simpa [computedTitle] using hres
  · have hres := (IconLabel.setValue_descCache st _ _ _ p hsd hv).1
    simpa using hres

/-- C4 witness: a fresh file label on `/src/a.txt` with the identity
formatter. -/
theorem setFile_fields_witness :
    labelTextCache (((FileLabel.setFile (IconLabel.create false) "/src/a.txt"
        (fun s => s)).map Prod.fst).getD (IconLabel.create false)).labelNode =
      some (basename "/src/a.txt") ∧
    (((FileLabel.setFile (IconLabel.create false) "/src/a.txt"
        (fun s => s)).map Prod.fst).getD (IconLabel.create false)).domNode._title =
      some "/src/a.txt" ∧
    (((FileLabel.setFile (IconLabel.create false) "/src/a.txt"
        (fun s => s)).map Prod.fst).getD (IconLabel.create false)).descriptionNode._textContent =
      some (if !(dirname "/src/a.txt" == "") && !(dirname "/src/a.txt" == ".")
            then (fun s => s) (dirname "/src/a.txt") else "") :=
  setFile_fields (IconLabel.create false) "/src/a.txt" (fun s => s)
    (FastLabelNode.create ElemId.labelEl (ElemState.fresh "label-name")) _ rfl rfl rfl rfl rfl

/-- C7: `onClick` attaches one click listener to the label element and one
to the description element invoking the same callback, so a click on either
region invokes the callback exactly once more than before; disposing the
returned handle removes exactly the two listeners it registered, restoring
the registry. -/
theorem onClick_invokes_once_and_disposes (ls : List ClickListener) (id1 id2 cb : Nat)
    (hf1 : ∀ x ∈ ls, x.id ≠ id1) (hf2 : ∀ x ∈ ls, x.id ≠ id2) :
    (dispatchClick (IconLabel.onClick ls id1 id2 cb).1 ElemId.labelEl).count cb =
      (dispatchClick ls ElemId.labelEl).count cb + 1 ∧
    (dispatchClick (IconLabel.onClick ls id1 id2 cb).1 ElemId.descriptionEl).count cb =
      (dispatchClick ls ElemId.descriptionEl).count cb + 1 ∧
    removeListeners (IconLabel.onClick ls id1 id2 cb).1 (IconLabel.onClick ls id1 id2 cb).2 = ls := by
  unfold IconLabel.onClick addDisposableListener removeListeners dispatchClick
  refine ⟨?_, ?_, ?_⟩
  · rw [List.append_assoc, List.filter_append, List.map_append, List.count_append]
    simp
  · rw [List.append_assoc, List.filter_append, List.map_append, List.count_append]
    simp
  · rw [List.append_assoc, List.filter_append]
    have hpair : List.filter (fun (l : ClickListener) => !([id1, id2].contains l.id))
        ([{ id := id1, target := ElemId.labelEl, callback := cb }] ++
          [{ id := id2, target := ElemId.descriptionEl, callback := cb }]) = [] := by
      simp
    rw [hpair, List.append_nil]
    apply List.filter_eq_self.mpr
    intro x hx
    simp only [List.contains_cons, List.contains_nil, Bool.or_false, Bool.not_eq_true',
      Bool.or_eq_false_iff, beq_eq_false_iff_ne]
    exact ⟨hf1 x hx, hf2 x hx⟩

/-- C7 witness: a single registration on an empty registry. -/
theorem onClick_invokes_once_and_disposes_witness :
    (dispatchClick (IconLabel.onClick [] 0 1 7).1 ElemId.labelEl).count 7 =
      (dispatchClick [] ElemId.labelEl).count 7 + 1 ∧
    (dispatchClick (IconLabel.onClick [] 0 1 7).1 ElemId.descriptionEl).count 7 =
      (dispatchClick [] ElemId.descriptionEl).count 7 + 1 ∧
    removeListeners (IconLabel.onClick [] 0 1 7).1 (IconLabel.onClick [] 0 1 7).2 = [] :=
  onClick_invokes_once_and_disposes [] 0 1 7 (by simp) (by simp)
